import Mathlib

/-!
Verification of the prompt-formatting, response-extraction and dataset-slicing
logic of `mistral_7b_lora_fine_tuning_on_alpaca_dataset.py`.

Strings are embedded as `List Char`; Python string operations (`strip`,
`split`, truthiness of a string, f-string interpolation) are translated
directly from the source.  The dataset fraction constant is a float literal
`0.01` in the source; it is embedded as the rational it denotes.
-/

set_option maxRecDepth 40000

namespace AlpacaFT

/-- Characters removed by Python `str.strip()` (the ASCII whitespace set;
the exotic Unicode whitespace code points are irrelevant to this script). -/
def isPySpace (c : Char) : Bool :=
  c = ' ' || c = '\t' || c = '\n' || c = '\r' || c = '\x0b' || c = '\x0c'

/-- Python `s.strip()`: remove leading and trailing whitespace. -/
def pyStrip (s : List Char) : List Char :=
  ((s.dropWhile isPySpace).reverse.dropWhile isPySpace).reverse

/-- Python `s.split(sep)` for a non-empty separator: scan left to right,
cutting at each non-overlapping occurrence of `sep`.  (For `sep = []` the
scan never cuts and the whole input is returned as one segment; Python
instead raises on an empty separator, and every use below has the fixed
non-empty separator `"### Response:"`.) -/
def splitPy (sep : List Char) (s : List Char) : List (List Char) :=
  match s with
  | [] => [[]]
  | c :: rest =>
    if h : sep ≠ [] ∧ sep <+: (c :: rest) then
      [] :: splitPy sep ((c :: rest).drop sep.length)
    else
      match splitPy sep rest with
      | [] => [[c]]
      | t :: ts => (c :: t) :: ts
termination_by s.length
decreasing_by
· have hpos : 0 < sep.length := List.length_pos.mpr h.1
  simp only [List.length_drop, List.length_cons]
  omega
· simp

/-- The literal delimiter used at line 232 of the source. -/
def RESPONSE_MARKER : List Char := "### Response:".data

/-- Line 232: `response.split("### Response:")[-1].strip()` — split on the
marker, keep the trailing segment (Python index `-1`), strip whitespace. -/
def extract_response (s : List Char) : List Char :=
  pyStrip ((splitPy RESPONSE_MARKER s).getLastD [])

/-- An Alpaca example: the three text fields read at lines 99-101. -/
structure Example where
  instruction : List Char
  input : List Char
  output : List Char

/-- The record `{"text": prompt}` returned at line 108. -/
structure FormattedRecord where
  text : List Char

/-- Fixed preamble of the template used when `input` is non-empty (line 104). -/
def preambleA : List Char :=
  "Below is an instruction that describes a task, paired with an input that provides further context. Write a response that appropriately completes the request.".data

/-- Fixed preamble of the template used when `input` is empty (line 106). -/
def preambleB : List Char :=
  "Below is an instruction that describes a task. Write a response that appropriately completes the request.".data

/-- The section marker "### Instruction:". -/
def SECTION_INSTRUCTION : List Char := "### Instruction:".data

/-- The section marker "### Input:". -/
def SECTION_INPUT : List Char := "### Input:".data

/-- Lines 97-108, `format_instruction`: choose a template by Python
truthiness of `example.input` (non-empty string) and interpolate the
fields, exactly as the two f-strings at lines 104 and 106 do. -/
def format_instruction (ex : Example) : FormattedRecord :=
  if ex.input ≠ [] then
    ⟨preambleA ++ "\n\n### Instruction:\n".data ++ ex.instruction
      ++ "\n\n### Input:\n".data ++ ex.input
      ++ "\n\n### Response:\n".data ++ ex.output⟩
  else
    ⟨preambleB ++ "\n\n### Instruction:\n".data ++ ex.instruction
      ++ "\n\n### Response:\n".data ++ ex.output⟩

/-- Lines 212-215: the inference-time prompt built inside
`generate_response`, identical to the training templates except that no
output is appended after the final "### Response:\n". -/
def build_prompt (instruction input_text : List Char) : List Char :=
  if input_text ≠ [] then
    preambleA ++ "\n\n### Instruction:\n".data ++ instruction
      ++ "\n\n### Input:\n".data ++ input_text
      ++ "\n\n### Response:\n".data
  else
    preambleB ++ "\n\n### Instruction:\n".data ++ instruction
      ++ "\n\n### Response:\n".data

/-- Python `int()` on a rational value: truncation toward zero. -/
def int_trunc (q : ℚ) : ℤ :=
  if 0 ≤ q then ⌊q⌋ else -⌊-q⌋

/-- Lines 91-92: `train_size = int(len(dataset) * fraction)` followed by
`dataset.select(range(train_size))`, which keeps the first `train_size`
rows in their original order. -/
def slice {α : Type} (ds : List α) (fraction : ℚ) : List α :=
  ds.take (int_trunc ((ds.length : ℚ) * fraction)).toNat

/-- Line 56: `DATASET_SIZE = 0.01  # 1% of the dataset`. -/
def DATASET_SIZE : ℚ := 0.01

/-- Line 270: the closing console message. -/
def closing_message : List Char :=
  "The model has been fine-tuned on 5% of the Alpaca dataset using LoRA.".data

/-! ### Helper lemmas about infixes and `splitPy` -/

theorem inf_of_pfx {l₁ l₂ : List Char} (h : l₁ <+: l₂) : l₁ <:+: l₂ := by
  obtain ⟨t, ht⟩ := h
  exact ⟨[], t, by simpa using ht⟩

theorem inf_ext_left {l y : List Char} (x : List Char) (h : l <:+: y) : l <:+: x ++ y := by
  obtain ⟨s, t, hst⟩ := h
  exact ⟨x ++ s, t, by simp [← hst]⟩

theorem inf_ext_right {l x : List Char} (y : List Char) (h : l <:+: x) : l <:+: x ++ y := by
  obtain ⟨s, t, hst⟩ := h
  exact ⟨s, t ++ y, by simp [← List.append_assoc, hst]⟩

theorem inf_cons_elim {sep : List Char} {c : Char} {t : List Char}
    (h : sep <:+: (c :: t)) : sep <+: (c :: t) ∨ sep <:+: t := by
  obtain ⟨s, u, hsu⟩ := h
  cases s with
  | nil => exact Or.inl ⟨u, by simpa using hsu⟩
  | cons a s' =>
    simp only [List.cons_append, List.cons.injEq] at hsu
    exact Or.inr ⟨s', u, hsu.2⟩

theorem take_pfx {α : Type} (l : List α) (n : ℕ) : l.take n <+: l :=
  ⟨l.drop n, List.take_append_drop n l⟩

theorem pfx_short {l₁ x y : List Char} (h : l₁ <+: x ++ y) (hl : l₁.length ≤ x.length) :
    l₁ <+: x := by
  obtain ⟨t, ht⟩ := h
  have h1 : (l₁ ++ t).take l₁.length = (x ++ y).take l₁.length := by rw [ht]
  rw [List.take_left, List.take_append_of_le_length hl] at h1
  rw [h1]
  exact take_pfx x l₁.length

theorem pfx_long_mem {sep : List Char} (x : List Char) {y : List Char} {c : Char}
    (h : sep <+: x ++ c :: y) (hlen : x.length < sep.length) : c ∈ sep := by
  have hxc : x ++ [c] <+: x ++ c :: y := ⟨y, by simp⟩
  have hle : (x ++ [c]).length ≤ sep.length := by
    simp only [List.length_append, List.length_cons, List.length_nil]
    omega
  have hps : x ++ [c] <+: sep := List.prefix_of_prefix_length_le hxc h hle
  obtain ⟨t, ht⟩ := hps
  rw [← ht]
  simp

theorem pfx_cons_head {sep : List Char} {c : Char} {t : List Char}
    (hc : c ∉ sep) (hp : sep <+: (c :: t)) : sep = [] := by
  cases sep with
  | nil => rfl
  | cons d sep' =>
    obtain ⟨u, hu⟩ := hp
    simp only [List.cons_append, List.cons.injEq] at hu
    exact absurd (hu.1 ▸ List.mem_cons_self d sep') hc

theorem no_inf_cons {sep : List Char} {c : Char} {t : List Char}
    (hc : c ∉ sep) (ht : ¬ sep <:+: t) : ¬ sep <:+: (c :: t) := by
  intro h
  rcases inf_cons_elim h with hp | hi
  · exact ht ((pfx_cons_head hc hp) ▸ ⟨[], t, rfl⟩)
  · exact ht hi

theorem inf_nl_split {sep : List Char} {c : Char} (hc : c ∉ sep) :
    ∀ {x y : List Char}, sep <:+: (x ++ c :: y) → sep <:+: x ∨ sep <:+: y := by
  intro x
  induction x with
  | nil =>
    intro y h
    rcases inf_cons_elim (by simpa using h) with hp | hi
    · exact Or.inl (by rw [pfx_cons_head hc hp])
    · exact Or.inr hi
  | cons a x' ih =>
    intro y h
    have hshape : (a :: x') ++ c :: y = a :: (x' ++ c :: y) := by simp
    rw [hshape] at h
    rcases inf_cons_elim h with hp | hi
    · by_cases hlen : sep.length ≤ (a :: x').length
      · have hps : sep <+: a :: x' := pfx_short (by simpa using hp) hlen
        exact Or.inl (inf_of_pfx hps)
      · exact absurd (pfx_long_mem (a :: x') (by simpa using hp) (by omega)) hc
    · rcases ih hi with h1 | h2
      · exact Or.inl (inf_ext_left [a] h1)
      · exact Or.inr h2

theorem splitPy_nil (sep : List Char) : splitPy sep [] = [[]] := by
  rw [splitPy]

theorem splitPy_pos {sep s : List Char} (h1 : sep ≠ []) (h2 : sep <+: s) :
    splitPy sep s = [] :: splitPy sep (s.drop sep.length) := by
  cases s with
  | nil =>
    exact absurd (List.prefix_nil.mp h2) h1
  | cons c rest =>
    rw [splitPy, dif_pos ⟨h1, h2⟩]

theorem splitPy_neg {sep : List Char} {c : Char} {rest t : List Char} {ts : List (List Char)}
    (h : ¬ (sep ≠ [] ∧ sep <+: (c :: rest))) (he : splitPy sep rest = t :: ts) :
    splitPy sep (c :: rest) = (c :: t) :: ts := by
  rw [splitPy, dif_neg h, he]

theorem splitPy_ne_nil (sep s : List Char) : splitPy sep s ≠ [] := by
  cases s with
  | nil => simp [splitPy_nil]
  | cons c rest =>
    by_cases h : sep ≠ [] ∧ sep <+: (c :: rest)
    · rw [splitPy_pos h.1 h.2]
      simp
    · cases he : splitPy sep rest with
      | nil =>
        rw [splitPy, dif_neg h, he]
        simp
      | cons t ts =>
        rw [splitPy_neg h he]
        simp

theorem splitPy_no_occ {sep : List Char} : ∀ {s : List Char},
    ¬ sep <:+: s → splitPy sep s = [s] := by
  intro s
  induction s with
  | nil => intro _; exact splitPy_nil sep
  | cons c rest ih =>
    intro h
    have hne : ¬ (sep ≠ [] ∧ sep <+: (c :: rest)) := fun hh => h (inf_of_pfx hh.2)
    have ht : ¬ sep <:+: rest := fun hi => h (by simpa using inf_ext_left [c] hi)
    rw [splitPy_neg hne (ih ht)]

theorem splitPy_two {sep : List Char} (hs : sep ≠ []) : ∀ {s : List Char},
    sep <:+: s → 2 ≤ (splitPy sep s).length := by
  intro s
  induction s with
  | nil =>
    intro h
    obtain ⟨a, b, hab⟩ := h
    simp only [List.append_eq_nil] at hab
    exact absurd hab.1.2 hs
  | cons c rest ih =>
    intro h
    by_cases hp : sep <+: (c :: rest)
    · rw [splitPy_pos hs hp]
      have := List.length_pos.mpr (splitPy_ne_nil sep ((c :: rest).drop sep.length))
      simp only [List.length_cons]
      omega
    · rcases inf_cons_elim h with h1 | h2
      · exact absurd h1 hp
      · cases he : splitPy sep rest with
        | nil => exact absurd he (splitPy_ne_nil sep rest)
        | cons t ts =>
          rw [splitPy_neg (fun hh => hp hh.2) he]
          have := ih h2
          rw [he] at this
          simpa using this

/-- Key structural fact: splitting `x ++ sep ++ (c :: t)` on `sep` and taking
the last segment yields `c :: t`, provided `sep` cannot overlap itself
(no non-trivial border), `c` does not occur in `sep`, and `t` contains no
occurrence of `sep`.  This is exactly the shape of a generated text:
prompt prefix, the "### Response:" marker, a newline, then the completion. -/
theorem splitPy_last_seg {sep : List Char} (hs : sep ≠ [])
    (hno : ∀ d, 0 < d → d < sep.length → ¬ (sep.drop d <+: sep))
    {c : Char} (hc : c ∉ sep) {t : List Char} (ht : ¬ sep <:+: t) :
    ∀ x : List Char, (splitPy sep (x ++ sep ++ (c :: t))).getLastD [] = c :: t
  | [] => by
    have hp : sep <+: sep ++ (c :: t) := ⟨c :: t, rfl⟩
    have hshape : ([] : List Char) ++ sep ++ (c :: t) = sep ++ (c :: t) := by simp
    rw [hshape, splitPy_pos hs hp, List.drop_left,
      splitPy_no_occ (no_inf_cons hc ht)]
    rfl
  | a :: x' => by
    by_cases hp : sep <+: ((a :: x') ++ sep ++ (c :: t))
    · have hlen : sep.length ≤ (a :: x').length := by
        by_contra hgt
        push_neg at hgt
        have hp' : sep <+: (a :: x') ++ (sep ++ (c :: t)) := by
          rw [← List.append_assoc]; exact hp
        obtain ⟨u, hu⟩ := hp'
        have htake : (sep ++ u).take sep.length
            = ((a :: x') ++ (sep ++ (c :: t))).take sep.length := by rw [hu]
        rw [List.take_left] at htake
        rw [List.take_append_eq_append_take,
          List.take_of_length_le (by omega),
          List.take_append_of_le_length (by
            simp only [List.length_cons] at hgt ⊢
            omega)] at htake
        have hdrop : sep.drop (a :: x').length = sep.take (sep.length - (a :: x').length) := by
          conv_lhs => rw [htake]
          rw [List.drop_left]
        have hbord := hno (a :: x').length (by simp) hgt
        rw [hdrop] at hbord
        exact hbord (take_pfx sep _)
      rw [splitPy_pos hs hp]
      have hdrop : ((a :: x') ++ sep ++ (c :: t)).drop sep.length
          = ((a :: x').drop sep.length) ++ sep ++ (c :: t) := by
        rw [List.append_assoc, List.drop_append_of_le_length hlen, List.append_assoc]
      rw [hdrop, List.getLastD_cons]
      exact splitPy_last_seg hs hno hc ht ((a :: x').drop sep.length)
    · have hocc : sep <:+: (x' ++ sep ++ (c :: t)) := ⟨x', c :: t, rfl⟩
      have h2 := splitPy_two hs hocc
      have hrec := splitPy_last_seg hs hno hc ht x'
      cases he : splitPy sep (x' ++ sep ++ (c :: t)) with
      | nil => exact absurd he (splitPy_ne_nil sep _)
      | cons t0 ts =>
        cases ts with
        | nil =>
          rw [he] at h2
          simp at h2
        | cons t1 ts' =>
          have hshape : (a :: x') ++ sep ++ (c :: t) = a :: (x' ++ sep ++ (c :: t)) := by
            simp
          rw [hshape, splitPy_neg (fun hh => hp (hshape ▸ hh.2)) he]
          rw [he] at hrec
          rw [List.getLastD_cons, List.getLastD_cons] at hrec ⊢
          exact hrec
termination_by x => x.length
decreasing_by
· have hpos : 0 < sep.length := List.length_pos.mpr hs
  simp only [List.length_drop, List.length_cons]
  omega
· simp

/-! ### Facts about the concrete markers and template segments -/

theorem marker_ne_nil : RESPONSE_MARKER ≠ [] := by decide

theorem nl_not_mem_marker : '\n' ∉ RESPONSE_MARKER := by decide

theorem marker_no_border :
    ∀ d, 0 < d → d < RESPONSE_MARKER.length →
      ¬ (RESPONSE_MARKER.drop d <+: RESPONSE_MARKER) := by
  have H : ∀ d, d < RESPONSE_MARKER.length →
      (0 < d → ¬ (RESPONSE_MARKER.drop d <+: RESPONSE_MARKER)) := by decide
  exact fun d h1 h2 => H d h2 h1

theorem instrSeg_decomp :
    "\n\n### Instruction:\n".data = "\n\n### Instruction:".data ++ ['\n'] := by decide

theorem inputSeg_decomp :
    "\n\n### Input:\n".data = ['\n', '\n'] ++ SECTION_INPUT ++ ['\n'] := by decide

theorem instrSeg_decomp2 :
    "\n\n### Instruction:\n".data = ['\n', '\n'] ++ SECTION_INSTRUCTION ++ ['\n'] := by decide

theorem respSeg_decomp :
    "\n\n### Response:\n".data = ['\n', '\n'] ++ RESPONSE_MARKER ++ ['\n'] := by decide

theorem respSeg_decomp2 :
    "\n\n### Response:\n".data = '\n' :: "\n### Response:".data ++ ['\n'] := by decide

theorem respSeg_decomp3 :
    "\n\n### Response:\n".data = ['\n', '\n'] ++ "### Response:\n".data := by decide

theorem pyStrip_cons_nl (s : List Char) : pyStrip ('\n' :: s) = pyStrip s := by
  simp [pyStrip, List.dropWhile_cons, isPySpace]

/-- Extraction applied to `x ++ "### Response:" ++ "\n" ++ t`, with no
occurrence of the marker inside `t`, returns `t` stripped. -/
theorem extract_after_marker {x t : List Char} (h : ¬ RESPONSE_MARKER <:+: t) :
    extract_response (x ++ RESPONSE_MARKER ++ ('\n' :: t)) = pyStrip t := by
  rw [extract_response,
    splitPy_last_seg marker_ne_nil marker_no_border nl_not_mem_marker h x,
    pyStrip_cons_nl]

/-- Both branches of `format_instruction` produce a text of the shape
`prefix ++ "### Response:" ++ "\n" ++ output`. -/
theorem format_text_shape (ex : Example) :
    ∃ p : List Char,
      (format_instruction ex).text = p ++ RESPONSE_MARKER ++ ('\n' :: ex.output) := by
  by_cases h : ex.input ≠ []
  · refine ⟨preambleA ++ "\n\n### Instruction:\n".data ++ ex.instruction
      ++ "\n\n### Input:\n".data ++ ex.input ++ ['\n', '\n'], ?_⟩
    simp [format_instruction, h, respSeg_decomp, RESPONSE_MARKER, List.append_assoc]
  · refine ⟨preambleB ++ "\n\n### Instruction:\n".data ++ ex.instruction
      ++ ['\n', '\n'], ?_⟩
    simp [format_instruction, h, respSeg_decomp, RESPONSE_MARKER, List.append_assoc]

/-- Both branches of the inference-time prompt have the shape
`prefix ++ "### Response:" ++ "\n"`. -/
theorem build_prompt_shape (instruction input_text : List Char) :
    ∃ p : List Char,
      build_prompt instruction input_text = p ++ RESPONSE_MARKER ++ ['\n'] := by
  by_cases h : input_text ≠ []
  · refine ⟨preambleA ++ "\n\n### Instruction:\n".data ++ instruction
      ++ "\n\n### Input:\n".data ++ input_text ++ ['\n', '\n'], ?_⟩
    simp [build_prompt, h, respSeg_decomp, RESPONSE_MARKER, List.append_assoc]
  · refine ⟨preambleB ++ "\n\n### Instruction:\n".data ++ instruction
      ++ ['\n', '\n'], ?_⟩
    simp [build_prompt, h, respSeg_decomp, RESPONSE_MARKER, List.append_assoc]

/-! ### Claims -/

/-- Claim C1: for every example whose `input` field is a non-empty string,
`format_instruction` returns a record whose text contains the three section
markers "### Instruction:", "### Input:", "### Response:" with occurrences
in that order. -/
theorem C1_markers_in_order (ex : Example) (h : ex.input ≠ []) :
    ∃ a b c d : List Char,
      (format_instruction ex).text
        = a ++ SECTION_INSTRUCTION ++ (b ++ SECTION_INPUT ++ (c ++ RESPONSE_MARKER ++ d)) := by
  refine ⟨preambleA ++ ['\n', '\n'], '\n' :: ex.instruction ++ ['\n', '\n'],
    '\n' :: ex.input ++ ['\n', '\n'], '\n' :: ex.output, ?_⟩
  simp [format_instruction, h, instrSeg_decomp2, inputSeg_decomp, respSeg_decomp,
    SECTION_INSTRUCTION, SECTION_INPUT, RESPONSE_MARKER, List.append_assoc]

/-- Witness for C1 at a concrete example with non-empty input. -/
theorem C1_witness :
    ((⟨"Say hi".data, "Paris".data, "Hi!".data⟩ : Example).input ≠ []) ∧
    ∃ a b c d : List Char,
      (format_instruction ⟨"Say hi".data, "Paris".data, "Hi!".data⟩).text
        = a ++ SECTION_INSTRUCTION ++ (b ++ SECTION_INPUT ++ (c ++ RESPONSE_MARKER ++ d)) :=
  ⟨by decide, C1_markers_in_order ⟨"Say hi".data, "Paris".data, "Hi!".data⟩ (by decide)⟩

/-- Claim C2 as stated is false: an example whose `instruction` field itself
contains the string "### Input:" has empty `input`, yet the formatted text
contains "### Input:" as a substring. -/
theorem C2_counterexample :
    (⟨SECTION_INPUT, [], "Hi!".data⟩ : Example).input = [] ∧
    SECTION_INPUT <:+: (format_instruction ⟨SECTION_INPUT, [], "Hi!".data⟩).text := by
  refine ⟨rfl, ⟨preambleB ++ "\n\n### Instruction:\n".data,
    "\n\n### Response:\n".data ++ "Hi!".data, ?_⟩⟩
  simp [format_instruction, SECTION_INPUT, List.append_assoc]

/-- Claim C2 (amended): for every example whose `input` is empty and whose
`instruction` and `output` fields do not themselves contain "### Input:",
the formatted text does not contain "### Input:" anywhere.  (The template
itself never introduces the marker; only interpolated field content can.) -/
theorem C2_amended (ex : Example) (h : ex.input = [])
    (hi : ¬ SECTION_INPUT <:+: ex.instruction)
    (ho : ¬ SECTION_INPUT <:+: ex.output) :
    ¬ SECTION_INPUT <:+: (format_instruction ex).text := by
  intro hocc
  have heq : (format_instruction ex).text
      = (preambleB ++ "\n\n### Instruction:".data)
        ++ '\n' :: (ex.instruction ++ '\n' :: ("\n### Response:".data ++ '\n' :: ex.output)) := by
    simp [format_instruction, h, instrSeg_decomp, respSeg_decomp2, List.append_assoc]
  rw [heq] at hocc
  have hnl : '\n' ∉ SECTION_INPUT := by decide
  rcases inf_nl_split hnl hocc with h1 | h1
  · exact (by decide : ¬ SECTION_INPUT <:+: (preambleB ++ "\n\n### Instruction:".data)) h1
  · rcases inf_nl_split hnl h1 with h2 | h2
    · exact hi h2
    · rcases inf_nl_split hnl h2 with h3 | h3
      · exact (by decide : ¬ SECTION_INPUT <:+: "\n### Response:".data) h3
      · exact ho h3

/-- Witness for the amended C2 at a concrete marker-free example. -/
theorem C2_amended_witness :
    (⟨"Say hi".data, [], "Hi!".data⟩ : Example).input = [] ∧
    ¬ SECTION_INPUT <:+: ("Say hi".data : List Char) ∧
    ¬ SECTION_INPUT <:+: ("Hi!".data : List Char) ∧
    ¬ SECTION_INPUT <:+: (format_instruction ⟨"Say hi".data, [], "Hi!".data⟩).text :=
  ⟨rfl, by decide, by decide,
    C2_amended ⟨"Say hi".data, [], "Hi!".data⟩ rfl (by decide) (by decide)⟩

/-- Claim C5: the inference-time prompt equals the training-time template
with the output omitted — the formatted training text is exactly
`build_prompt instruction input ++ output` — and the prompt ends with
"### Response:\n". -/
theorem C5_prompt_mirrors_template (instruction input_text output : List Char) :
    (format_instruction ⟨instruction, input_text, output⟩).text
        = build_prompt instruction input_text ++ output ∧
    "### Response:\n".data <:+ build_prompt instruction input_text := by
  constructor
  · by_cases h : input_text ≠ [] <;>
      simp [format_instruction, build_prompt, h, List.append_assoc]
  · obtain ⟨p, hp⟩ := build_prompt_shape instruction input_text
    refine ⟨p, ?_⟩
    rw [hp]
    simp [RESPONSE_MARKER, List.append_assoc]

/-- Claim C7: on the concrete example {instruction: "Say hi", input: "",
output: "Hi!"} the formatted text ends with "### Response:\nHi!" and does
not contain "### Input:". -/
theorem C7_concrete_scenario :
    "### Response:\nHi!".data <:+
        (format_instruction ⟨"Say hi".data, [], "Hi!".data⟩).text ∧
    ¬ "### Input:".data <:+:
        (format_instruction ⟨"Say hi".data, [], "Hi!".data⟩).text := by
  decide

/-- Claim C10: for every example, the formatted text ends with
"### Response:\n" immediately followed by the `output` field verbatim, with
nothing after it. -/
theorem C10_output_is_final_suffix (ex : Example) :
    ("### Response:\n".data ++ ex.output) <:+ (format_instruction ex).text := by
  by_cases h : ex.input ≠ []
  · refine ⟨preambleA ++ "\n\n### Instruction:\n".data ++ ex.instruction
      ++ "\n\n### Input:\n".data ++ ex.input ++ ['\n', '\n'], ?_⟩
    simp [format_instruction, h, respSeg_decomp3, List.append_assoc]
  · refine ⟨preambleB ++ "\n\n### Instruction:\n".data ++ ex.instruction
      ++ ['\n', '\n'], ?_⟩
    simp [format_instruction, h, respSeg_decomp3, List.append_assoc]

/-- Claim C3: `extract_response` is a right inverse of prompt construction
on well-formed generation output: for every prompt built by the generation
formatter and every completion `suffix` that does not itself contain the
marker "### Response:" (well-formedness), extracting from
`prompt ++ suffix` returns `suffix` stripped of surrounding whitespace. -/
theorem C3_extract_right_inverse (instruction input_text suffix : List Char)
    (h : ¬ RESPONSE_MARKER <:+: suffix) :
    extract_response (build_prompt instruction input_text ++ suffix)
      = pyStrip suffix := by
  obtain ⟨p, hp⟩ := build_prompt_shape instruction input_text
  have hshape : build_prompt instruction input_text ++ suffix
      = p ++ RESPONSE_MARKER ++ ('\n' :: suffix) := by
    rw [hp]
    simp
  rw [hshape]
  exact extract_after_marker h

/-- Witness for C3 at concrete instruction, input and completion. -/
theorem C3_witness :
    ¬ RESPONSE_MARKER <:+: (" The capital is Paris. ".data : List Char) ∧
    extract_response (build_prompt "Name the capital of France.".data [] ++ " The capital is Paris. ".data)
      = pyStrip " The capital is Paris. ".data :=
  ⟨by decide,
    C3_extract_right_inverse "Name the capital of France.".data [] " The capital is Paris. ".data (by decide)⟩

/-- Claim C6: on any input that contains no occurrence of "### Response:",
`extract_response` returns the whole input trimmed of surrounding
whitespace, raising no error and losing nothing but that whitespace. -/
theorem C6_marker_absent (s : List Char) (h : ¬ RESPONSE_MARKER <:+: s) :
    extract_response s = pyStrip s := by
  rw [extract_response, splitPy_no_occ h]
  rfl

/-- Witness for C6 at a concrete marker-free string. -/
theorem C6_witness :
    ¬ RESPONSE_MARKER <:+: ("  no marker here ".data : List Char) ∧
    extract_response "  no marker here ".data = pyStrip "  no marker here ".data :=
  ⟨by decide, C6_marker_absent "  no marker here ".data (by decide)⟩

/-- Claim C9: for every example whose `output` does not contain the marker
"### Response:", applying the extraction step to the formatted training
text recovers the stripped output. -/
theorem C9_format_extract_roundtrip (ex : Example)
    (h : ¬ RESPONSE_MARKER <:+: ex.output) :
    extract_response (format_instruction ex).text = pyStrip ex.output := by
  obtain ⟨p, hp⟩ := format_text_shape ex
  rw [hp]
  exact extract_after_marker h

/-- Witness for C9 at a concrete example. -/
theorem C9_witness :
    ¬ RESPONSE_MARKER <:+: (" Hi there! ".data : List Char) ∧
    extract_response (format_instruction ⟨"Say hi".data, "Paris".data, " Hi there! ".data⟩).text
      = pyStrip " Hi there! ".data :=
  ⟨by decide,
    C9_format_extract_roundtrip ⟨"Say hi".data, "Paris".data, " Hi there! ".data⟩ (by decide)⟩

/-- Claim C4: for every dataset and every fraction in [0, 1], `slice`
returns exactly `floor(len * fraction)` elements, namely a prefix of the
dataset (the first elements in original order); fraction 0 yields the empty
slice, fraction 1 returns the dataset unchanged, and re-applying `slice`
with fraction 1 to the output is the identity. -/
theorem C4_slice_spec {α : Type} (ds : List α) (f : ℚ) (h0 : 0 ≤ f) (h1 : f ≤ 1) :
    ((slice ds f).length : ℤ) = ⌊(ds.length : ℚ) * f⌋
      ∧ slice ds f <+: ds
      ∧ slice ds 0 = []
      ∧ slice ds 1 = ds
      ∧ slice (slice ds f) 1 = slice ds f := by
  have hone : ∀ l : List α, slice l 1 = l := by
    intro l
    unfold slice int_trunc
    rw [mul_one, if_pos (by positivity), Int.floor_natCast]
    simp
  have hprod : 0 ≤ (ds.length : ℚ) * f := mul_nonneg (by positivity) h0
  have htr : int_trunc ((ds.length : ℚ) * f) = ⌊(ds.length : ℚ) * f⌋ := if_pos hprod
  have hfl0 : 0 ≤ ⌊(ds.length : ℚ) * f⌋ := Int.floor_nonneg.mpr hprod
  have hle : ⌊(ds.length : ℚ) * f⌋ ≤ (ds.length : ℤ) := by
    have hq : (ds.length : ℚ) * f ≤ (ds.length : ℚ) := by
      calc (ds.length : ℚ) * f ≤ (ds.length : ℚ) * 1 :=
            mul_le_mul_of_nonneg_left h1 (by positivity)
        _ = (ds.length : ℚ) := mul_one _
    calc ⌊(ds.length : ℚ) * f⌋ ≤ ⌊(ds.length : ℚ)⌋ := Int.floor_le_floor hq
      _ = (ds.length : ℤ) := Int.floor_natCast _
  refine ⟨?_, ?_, ?_, hone ds, hone (slice ds f)⟩
  · rw [slice, htr, List.length_take]
    have hnat : ⌊(ds.length : ℚ) * f⌋.toNat ≤ ds.length := by omega
    rw [Nat.min_eq_left hnat]
    omega
  · rw [slice]
    exact take_pfx ds _
  · rw [slice]
    simp [int_trunc]

/-- Witness for C4 at dataset `[0, 1, 2, 3]` and fraction `1/2`. -/
theorem C4_witness :
    (0 : ℚ) ≤ 1 / 2 ∧ (1 / 2 : ℚ) ≤ 1 ∧
    (((slice ([0, 1, 2, 3] : List ℕ) (1 / 2)).length : ℤ)
        = ⌊(([0, 1, 2, 3] : List ℕ).length : ℚ) * (1 / 2)⌋
      ∧ slice ([0, 1, 2, 3] : List ℕ) (1 / 2) <+: [0, 1, 2, 3]
      ∧ slice ([0, 1, 2, 3] : List ℕ) 0 = []
      ∧ slice ([0, 1, 2, 3] : List ℕ) 1 = [0, 1, 2, 3]
      ∧ slice (slice ([0, 1, 2, 3] : List ℕ) (1 / 2)) 1
          = slice ([0, 1, 2, 3] : List ℕ) (1 / 2)) :=
  ⟨by norm_num, by norm_num,
    C4_slice_spec [0, 1, 2, 3] (1 / 2) (by norm_num) (by norm_num)⟩

/-- Claim C8: the closing console message claims training used "5% of the
Alpaca dataset" while the configured fraction constant `DATASET_SIZE` is
`0.01`, i.e. 1%; the printed percentage disagrees with the configuration. -/
theorem C8_closing_message_mismatch :
    "5% of the Alpaca dataset".data <:+: closing_message
      ∧ DATASET_SIZE = 1 / 100
      ∧ (5 : ℚ) / 100 ≠ DATASET_SIZE := by
  refine ⟨⟨"The model has been fine-tuned on ".data, " using LoRA.".data, by decide⟩,
    by norm_num [DATASET_SIZE], by norm_num [DATASET_SIZE]⟩

end AlpacaFT
